import Mathlib

/-!
# kyaml/setters2/settersutil: FieldSetter and SetAllSetterDefinitions

A shallow embedding of `kyaml/setters2/settersutil/fieldsetter.go`.

The three functions of the file (`FieldSetter.Filter`, `FieldSetter.Set`,
`SetAllSetterDefinitions`) are orchestration code over collaborators that live
in other packages (`setters2.SetOpenAPI.UpdateFile`, `openapi.AddSchemaFromFile`,
`kio.Pipeline.Execute`, `setters2.List.List`).  The collaborators are taken as
parameters (`Collaborators σ`) acting on an arbitrary store `σ` (the file system
together with the process-wide schema registry).  Every call of a collaborator,
and every entry into `FieldSetter.Set`, is recorded in a ghost trace carried
next to the store, so that statements about which calls happen, in which order
and with which arguments can be made about the embedded code.
-/

/-- Go slices; the `nil` slice is the empty list. -/
abbrev Slice (α : Type) := List α

/-- Go `error` values; a `nil` error is `none` in `Option Error`. -/
abbrev Error := String

namespace yaml

/-- One scalar field of a resource document, with the setter it references
(if any). -/
structure Field where
  key : String
  value : String
  setter : Option String
deriving DecidableEq

/-- The `yaml.RNode` of a resource document: the document's fields together
with the file it was read from. -/
structure RNode where
  path : String
  fields : Slice Field
deriving DecidableEq

end yaml

namespace setters2

/-- The `setters2.SetOpenAPI` request, with the fields `FieldSetter.Set` fills in. -/
structure SetOpenAPI where
  Name : String
  Value : String
  ListValues : Slice String
  Description : String
  SetBy : String
deriving DecidableEq

/-- The `setters2.Set` filter state: the setter name and the shared counter. -/
structure Set where
  Name : String
  Count : Int := 0
deriving DecidableEq

/-- The `setters2.SetterDefinition` entries produced by listing, with the fields
`SetAllSetterDefinitions` reads. -/
structure SetterDefinition where
  Name : String
  Value : String
  ListValues : Slice String
  Description : String
  SetBy : String
deriving DecidableEq

end setters2

/-- The `setters2.List` value: the setters found by `List.List`. -/
structure setters2.List where
  Setters : Slice setters2.SetterDefinition := []
deriving DecidableEq

namespace kio

/-- The `kio.LocalPackageReadWriter`, with the two fields `FieldSetter.Set` sets
(every other field keeps its zero value). -/
structure LocalPackageReadWriter where
  PackagePath : String
  NoDeleteFiles : Bool := false
deriving DecidableEq

/-- The `kio.Filter` values built in this file: the result of `setters2.SetAll`. -/
inductive Filter where
  | SetAll (s : setters2.Set)
deriving DecidableEq

/-- The `kio.Pipeline` literal. -/
structure Pipeline where
  Inputs : Slice LocalPackageReadWriter
  Filters : Slice Filter
  Outputs : Slice LocalPackageReadWriter
deriving DecidableEq

end kio

/-- The call `setters2.SetAll(s)`: the filter that applies the setter `s` to every document. -/
def setters2.SetAll (s : setters2.Set) : kio.Filter := kio.Filter.SetAll s

namespace settersutil

/-- FieldSetter sets the value for a field setter. -/
structure FieldSetter where
  Name : String := ""
  Value : String := ""
  ListValues : Slice String := []
  Description : String := ""
  SetBy : String := ""
  Count : Int := 0
  OpenAPIPath : String := ""
  ResourcesPath : String := ""
deriving DecidableEq

/-- Ghost events: the calls whose occurrence and order the trace records. -/
inductive Call where
  | Set (fs : FieldSetter) (openAPIPath resourcesPath : String)
  | UpdateFile (soa : setters2.SetOpenAPI) (path : String)
  | AddSchemaFromFile (path : String)
  | Execute (p : kio.Pipeline)
  | List (openAPIPath resourcePath : String)
deriving DecidableEq

/-- The collaborators of the package, as transitions of a store `σ`.
`Execute` also returns the state in which it leaves the `*setters2.Set` object
that the pipeline's `SetAll` filter shares with its caller. -/
structure Collaborators (σ : Type) where
  UpdateFile : setters2.SetOpenAPI → String → σ → Option Error × σ
  AddSchemaFromFile : String → σ → Option Error × σ
  Execute : kio.Pipeline → σ → (setters2.Set × Option Error) × σ
  List : setters2.List → String → String → σ → (setters2.List × Option Error) × σ

/-- The store together with the ghost trace of calls. -/
structure World (σ : Type) where
  state : σ
  trace : Slice Call

variable {σ : Type}

/-- The call `soa.UpdateFile(path)`: the collaborator, recorded in the trace. -/
def UpdateFile (E : Collaborators σ) (soa : setters2.SetOpenAPI) (path : String)
    (w : World σ) : Option Error × World σ :=
  let r := E.UpdateFile soa path w.state
  (r.1, { state := r.2, trace := w.trace ++ [Call.UpdateFile soa path] })

/-- The call `openapi.AddSchemaFromFile(path)`: the collaborator, recorded in the trace. -/
def AddSchemaFromFile (E : Collaborators σ) (path : String)
    (w : World σ) : Option Error × World σ :=
  let r := E.AddSchemaFromFile path w.state
  (r.1, { state := r.2, trace := w.trace ++ [Call.AddSchemaFromFile path] })

/-- The call `p.Execute()`: the collaborator, recorded in the trace.  The first component
of the result is the state in which the run leaves the `*setters2.Set` object
that the pipeline's filter points to. -/
def Execute (E : Collaborators σ) (p : kio.Pipeline)
    (w : World σ) : (setters2.Set × Option Error) × World σ :=
  let r := E.Execute p w.state
  (r.1, { state := r.2, trace := w.trace ++ [Call.Execute p] })

/-- The call `l.List(openAPIPath, resourcePath)`: the collaborator, recorded in the trace. -/
def ListSetters (E : Collaborators σ) (l : setters2.List) (openAPIPath resourcePath : String)
    (w : World σ) : (setters2.List × Option Error) × World σ :=
  let r := E.List l openAPIPath resourcePath w.state
  (r.1, { state := r.2, trace := w.trace ++ [Call.List openAPIPath resourcePath] })

/-- Set updates the OpenAPI definitions and resources with the new setter value.
The call itself is recorded in the ghost trace on entry. -/
def FieldSetter.Set (E : Collaborators σ) (fs : FieldSetter)
    (openAPIPath resourcesPath : String) (w : World σ) : (Int × Option Error) × World σ :=
  let w0 : World σ :=
    { state := w.state, trace := w.trace ++ [Call.Set fs openAPIPath resourcesPath] }
  let soa : setters2.SetOpenAPI :=
    { Name := fs.Name, Value := fs.Value, ListValues := fs.ListValues,
      Description := fs.Description, SetBy := fs.SetBy }
  match UpdateFile E soa openAPIPath w0 with
  | (some err, w1) => ((0, some err), w1)
  | (none, w1) =>
    match AddSchemaFromFile E openAPIPath w1 with
    | (some err, w2) => ((0, some err), w2)
    | (none, w2) =>
      let inout : kio.LocalPackageReadWriter :=
        { PackagePath := resourcesPath, NoDeleteFiles := true }
      let s : setters2.Set := { Name := fs.Name }
      let r := Execute E
        { Inputs := [inout], Filters := [setters2.SetAll s], Outputs := [inout] } w2
      ((r.1.1.Count, r.1.2), r.2)

/-- The result of `(*FieldSetter).Filter`: the receiver after the call, the
returned nodes and the returned error. -/
structure FilterResult where
  fs : FieldSetter
  nodes : Slice yaml.RNode
  err : Option Error
deriving DecidableEq

/-- Filter stores the count of `Set` in the receiver and returns `nil, nil`. -/
def FieldSetter.Filter (E : Collaborators σ) (fs : FieldSetter) (_input : Slice yaml.RNode)
    (w : World σ) : FilterResult × World σ :=
  let r := fs.Set E fs.OpenAPIPath fs.ResourcesPath w
  ({ fs := { fs with Count := r.1.1 }, nodes := [], err := none }, r.2)

/-- The inner loop of `SetAllSetterDefinitions`: the setter definition `sd` on
each destination directory in turn, stopping at the first error. -/
def setInDestDirs (E : Collaborators σ) (sourcePkgOpenAPIPath : String)
    (sd : setters2.SetterDefinition) : Slice String → World σ → Option Error × World σ
  | [], w => (none, w)
  | destDir :: rest, w =>
    let fs : FieldSetter :=
      { Name := sd.Name, Value := sd.Value, ListValues := sd.ListValues,
        Description := sd.Description, SetBy := sd.SetBy }
    match fs.Set E sourcePkgOpenAPIPath destDir w with
    | ((_, some err), w1) => (some err, w1)
    | ((_, none), w1) => setInDestDirs E sourcePkgOpenAPIPath sd rest w1

/-- The outer loop of `SetAllSetterDefinitions`: every listed setter in turn,
stopping at the first error. -/
def setAllSetters (E : Collaborators σ) (sourcePkgOpenAPIPath : String)
    (destDirs : Slice String) :
    Slice setters2.SetterDefinition → World σ → Option Error × World σ
  | [], w => (none, w)
  | sd :: rest, w =>
    match setInDestDirs E sourcePkgOpenAPIPath sd destDirs w with
    | (some err, w1) => (some err, w1)
    | (none, w1) => setAllSetters E sourcePkgOpenAPIPath destDirs rest w1

/-- SetAllSetterDefinitions reads all the Setter Definitions from OpenAPI in source
package and sets all setter values in destination packages with out updating
destination packages openAPI files. -/
def SetAllSetterDefinitions (E : Collaborators σ) (sourcePkgPath sourcePkgOpenAPIPath : String)
    (destDirs : Slice String) (w : World σ) : Option Error × World σ :=
  let l : setters2.List := {}
  match ListSetters E l sourcePkgOpenAPIPath sourcePkgPath w with
  | ((_, some err), w1) => (some err, w1)
  | ((l1, none), w1) => setAllSetters E sourcePkgOpenAPIPath destDirs l1.Setters w1

end settersutil

/-! ## A store for the collaborators -/

namespace model

/-- Modelled from the spec: the file system and registry behind the collaborators,
which are the schema documents by path, the process-wide schema registry and
the resource directories by path (the external interfaces of the spec). -/
structure Store where
  schemas : Slice (String × Slice setters2.SetterDefinition)
  registry : Slice setters2.SetterDefinition
  packages : Slice (String × Slice yaml.RNode)
deriving DecidableEq

/-- Modelled from the spec: the write of a whole file or directory at `path`,
which replaces what the path held. -/
def replace {β : Type} (path : String) (v : β) : Slice (String × β) → Slice (String × β)
  | [] => []
  | e :: rest => if e.1 = path then (path, v) :: rest else e :: replace path v rest

/-- Modelled from the spec: the update of one setter definition by
`SetOpenAPI.UpdateFile`, which takes the value, list values, description and
attribution of the request when the names agree. -/
def updateDefinition (soa : setters2.SetOpenAPI) (d : setters2.SetterDefinition) :
    setters2.SetterDefinition :=
  if d.Name = soa.Name then
    { Name := d.Name, Value := soa.Value, ListValues := soa.ListValues,
      Description := soa.Description, SetBy := soa.SetBy }
  else d

/-- Modelled from the spec: `SetOpenAPI.UpdateFile`, step 1 of the Field Setter.
It fails when the schema document cannot be read or the named setter does not
exist, and otherwise rewrites the definition in the schema document. -/
def UpdateFile (soa : setters2.SetOpenAPI) (path : String) (st : Store) : Option Error × Store :=
  match st.schemas.lookup path with
  | none => (some "SchemaUpdateError: cannot read schema", st)
  | some defs =>
    if defs.any (fun d => d.Name = soa.Name) then
      (none, { st with schemas := replace path (defs.map (updateDefinition soa)) st.schemas })
    else (some "SchemaUpdateError: setter does not exist", st)

/-- Modelled from the spec: `openapi.AddSchemaFromFile`, step 2 of the Field
Setter, which registers the schema document in the process-wide registry.  It
fails on malformed schema content, which here is a document that cannot be read
or in which a setter name is defined twice (a definition is identified by a
unique name). -/
def AddSchemaFromFile (path : String) (st : Store) : Option Error × Store :=
  match st.schemas.lookup path with
  | none => (some "SchemaLoadError: cannot load schema", st)
  | some defs =>
    if (defs.map (fun d => d.Name)).Nodup then (none, { st with registry := defs })
    else (some "SchemaLoadError: malformed schema", st)

/-- Modelled from the spec: `List.List`, which enumerates the setter definitions
of a schema document and fails when the schema cannot be read. -/
def ListSetters (l : setters2.List) (openAPIPath _resourcePath : String) (st : Store) :
    (setters2.List × Option Error) × Store :=
  match st.schemas.lookup openAPIPath with
  | none => ((l, some "ListError: cannot read schema"), st)
  | some defs => (({ Setters := l.Setters ++ defs }, none), st)

/-- Modelled from the spec: the `SetAll` filter on one document, which replaces
the value of every field that references the setter `name`. -/
def setNode (name value : String) (n : yaml.RNode) : yaml.RNode :=
  let set := fun (f : yaml.Field) =>
    if f.setter = some name then { f with value := value } else f
  { n with fields := n.fields.map set }

/-- Modelled from the spec: the increments of the shared counter by the `SetAll`
filter on one document, one for every field that references the setter `name`. -/
def countNode (name : String) (n : yaml.RNode) : Nat :=
  (n.fields.filter (fun f => f.setter = some name)).length

/-- Modelled from the spec: the `SetAll` filter.  It returns the rewritten
documents of the files that reference the setter (only the nodes of files which
should be updated) and adds the number of rewritten fields to the counter; it
fails when the setter is not in the registry. -/
def runFilter (registry : Slice setters2.SetterDefinition) (s : setters2.Set)
    (nodes : Slice yaml.RNode) : (setters2.Set × Slice yaml.RNode) × Option Error :=
  match registry.find? (fun d => d.Name = s.Name) with
  | none => ((s, nodes), some "PipelineError: setter is not registered")
  | some d =>
    let touched := nodes.filter (fun n => 0 < countNode s.Name n)
    (({ s with Count := s.Count + ((touched.map (countNode s.Name)).sum : Nat) },
      touched.map (setNode s.Name d.Value)), none)

/-- Modelled from the spec: `LocalPackageReadWriter.Read` on every input of a
pipeline, which fails when a directory cannot be read. -/
def readAll (st : Store) : Slice kio.LocalPackageReadWriter → Slice yaml.RNode × Option Error
  | [] => ([], none)
  | r :: rest =>
    match st.packages.lookup r.PackagePath with
    | none => ([], some "PipelineError: cannot read directory")
    | some nodes =>
      match readAll st rest with
      | (_, some err) => ([], some err)
      | (more, none) => (nodes ++ more, none)

/-- Modelled from the spec: the filter stage of `Pipeline.Execute`, the filters
applied in order; the result carries the state in which each filter object is
left. -/
def runFilters (registry : Slice setters2.SetterDefinition) :
    Slice kio.Filter → Slice yaml.RNode → (Slice kio.Filter × Slice yaml.RNode) × Option Error
  | [], nodes => (([], nodes), none)
  | kio.Filter.SetAll s :: rest, nodes =>
    match runFilter registry s nodes with
    | ((s1, out), some err) => ((kio.Filter.SetAll s1 :: rest, out), some err)
    | ((s1, out), none) =>
      let r := runFilters registry rest out
      ((kio.Filter.SetAll s1 :: r.1.1, r.1.2), r.2)

/-- Modelled from the spec: `LocalPackageReadWriter.Write` on one directory.  A
file with a document in the output is rewritten in place; a file absent from
the output is removed, unless deletion is disabled; a document of a file that
did not exist is written as a new file. -/
def Write (rw : kio.LocalPackageReadWriter) (nodes files : Slice yaml.RNode) : Slice yaml.RNode :=
  files.filterMap (fun f =>
      match nodes.find? (fun n => n.path = f.path) with
      | some n => some n
      | none => if rw.NoDeleteFiles then some f else none)
    ++ nodes.filter (fun n => !(files.any (fun f => f.path = n.path)))

/-- Modelled from the spec: the write stage of `Pipeline.Execute`, the output
documents written to every output directory in turn. -/
def writeAll (nodes : Slice yaml.RNode) :
    Slice kio.LocalPackageReadWriter → Store → Option Error × Store
  | [], st => (none, st)
  | o :: rest, st =>
    match st.packages.lookup o.PackagePath with
    | none => (some "PipelineError: cannot write directory", st)
    | some files =>
      writeAll nodes rest
        { st with packages := replace o.PackagePath (Write o nodes files) st.packages }

/-- Modelled from the spec: `Pipeline.Execute`, the read-transform-write cycle.
The first error aborts the run; the filter objects are returned as the run
leaves them. -/
def Execute (p : kio.Pipeline) (st : Store) : (Slice kio.Filter × Option Error) × Store :=
  match readAll st p.Inputs with
  | (_, some err) => ((p.Filters, some err), st)
  | (nodes, none) =>
    match runFilters st.registry p.Filters nodes with
    | ((fl, _), some err) => ((fl, some err), st)
    | ((fl, out), none) =>
      let r := writeAll out p.Outputs st
      ((fl, r.1), r.2)

/-- The `*setters2.Set` object of the first filter of a pipeline. -/
def sharedSet : Slice kio.Filter → setters2.Set
  | kio.Filter.SetAll s :: _ => s
  | [] => { Name := "" }

/-- Modelled from the spec: the four collaborators of the package over the store. -/
def collaborators : settersutil.Collaborators Store where
  UpdateFile := UpdateFile
  AddSchemaFromFile := AddSchemaFromFile
  Execute := fun p st => let r := Execute p st; ((sharedSet r.1.1, r.1.2), r.2)
  List := ListSetters

/-! The scenario of the spec: the schema defines `image-tag` with value `v1`;
two resource documents reference it and a third does not. -/

/-- The definition of the setter `image-tag`. -/
def imageTag : setters2.SetterDefinition :=
  { Name := "image-tag", Value := "v1", ListValues := [], Description := "tag", SetBy := "me" }

/-- The definition of a second setter, `replicas`. -/
def replicas : setters2.SetterDefinition :=
  { Name := "replicas", Value := "3", ListValues := [], Description := "", SetBy := "" }

/-- The three documents of the scenario. -/
def docs : Slice yaml.RNode :=
  [ { path := "a.yaml", fields := [{ key := "image", value := "v1", setter := some "image-tag" }] },
    { path := "b.yaml", fields := [{ key := "image", value := "v1", setter := some "image-tag" }] },
    { path := "c.yaml", fields := [{ key := "name", value := "app", setter := none }] } ]

/-- The store of the scenario: the schema document of the source package, a
schema document that defines `image-tag` twice, and two packages. -/
def store0 : Store :=
  { schemas := [("src/Krmfile", [imageTag, replicas]), ("bad/Krmfile", [imageTag, imageTag])],
    registry := [],
    packages := [("src", docs), ("dst", docs)] }

/-- The world of the scenario, with an empty trace. -/
def world0 : settersutil.World Store := { state := store0, trace := [] }

/-- The request of the scenario: set `image-tag` to `v2`. -/
def setImageTag : settersutil.FieldSetter :=
  { Name := "image-tag", Value := "v2", OpenAPIPath := "src/Krmfile", ResourcesPath := "src" }

end model

/-! ## Vocabulary of the statements -/

namespace settersutil

variable {σ : Type}

/-- The schema update request that `Set` builds from its receiver. -/
def requestOf (fs : FieldSetter) : setters2.SetOpenAPI :=
  { Name := fs.Name, Value := fs.Value, ListValues := fs.ListValues,
    Description := fs.Description, SetBy := fs.SetBy }

/-- The package read-writer that `Set` builds for a resource directory. -/
def readWriterOf (resourcesPath : String) : kio.LocalPackageReadWriter :=
  { PackagePath := resourcesPath, NoDeleteFiles := true }

/-- The pipeline that `Set` runs: one input, one filter, one output. -/
def pipelineOf (fs : FieldSetter) (resourcesPath : String) : kio.Pipeline :=
  { Inputs := [readWriterOf resourcesPath],
    Filters := [setters2.SetAll { Name := fs.Name, Count := 0 }],
    Outputs := [readWriterOf resourcesPath] }

/-- The store after the schema update of a `Set` call. -/
def afterUpdate (E : Collaborators σ) (fs : FieldSetter) (openAPIPath : String) (st : σ) :
    Option Error × σ :=
  E.UpdateFile (requestOf fs) openAPIPath st

/-- The store after the schema update and the schema reload of a `Set` call. -/
def afterReload (E : Collaborators σ) (fs : FieldSetter) (openAPIPath : String) (st : σ) :
    Option Error × σ :=
  E.AddSchemaFromFile openAPIPath (afterUpdate E fs openAPIPath st).2

/-- The outcome of the resource pass of a `Set` call. -/
def afterPass (E : Collaborators σ) (fs : FieldSetter) (openAPIPath resourcesPath : String)
    (st : σ) : (setters2.Set × Option Error) × σ :=
  E.Execute (pipelineOf fs resourcesPath) (afterReload E fs openAPIPath st).2

/-- The request that `SetAllSetterDefinitions` builds from a listed setter. -/
def fieldSetterOf (sd : setters2.SetterDefinition) : FieldSetter :=
  { Name := sd.Name, Value := sd.Value, ListValues := sd.ListValues,
    Description := sd.Description, SetBy := sd.SetBy }

/-- The (setter, destination) pairs in setter-major order. -/
def pairs (setters : Slice setters2.SetterDefinition) (destDirs : Slice String) :
    Slice (setters2.SetterDefinition × String) :=
  match setters with
  | [] => []
  | sd :: rest => destDirs.map (fun d => (sd, d)) ++ pairs rest destDirs

/-- One `Set` call after the other on a list of pairs, whatever each returns. -/
def applyPairs (E : Collaborators σ) (src : String) :
    Slice (setters2.SetterDefinition × String) → World σ → World σ
  | [], w => w
  | p :: rest, w => applyPairs E src rest ((fieldSetterOf p.1).Set E src p.2 w).2

/-- Every `Set` call of the sequence on a list of pairs returns a nil error. -/
def allSucceed (E : Collaborators σ) (src : String) :
    Slice (setters2.SetterDefinition × String) → World σ → Bool
  | [], _ => true
  | p :: rest, w =>
    ((fieldSetterOf p.1).Set E src p.2 w).1.2.isNone &&
      allSucceed E src rest ((fieldSetterOf p.1).Set E src p.2 w).2

/-- One `Set` call after the other on a list of pairs, stopping at the first
one that returns an error. -/
def runPairs (E : Collaborators σ) (src : String) :
    Slice (setters2.SetterDefinition × String) → World σ → Option Error × World σ
  | [], w => (none, w)
  | p :: rest, w =>
    match (fieldSetterOf p.1).Set E src p.2 w with
    | ((_, some err), w1) => (some err, w1)
    | ((_, none), w1) => runPairs E src rest w1

/-- The setters that the listing of `SetAllSetterDefinitions` yields. -/
def listed (E : Collaborators σ) (sourcePkgPath src : String) (w : World σ) :
    Slice setters2.SetterDefinition :=
  (ListSetters E {} src sourcePkgPath w).1.1.Setters

/-- The error that the listing of `SetAllSetterDefinitions` returns. -/
def listError (E : Collaborators σ) (sourcePkgPath src : String) (w : World σ) : Option Error :=
  (ListSetters E {} src sourcePkgPath w).1.2

/-- The world after the listing of `SetAllSetterDefinitions`. -/
def afterList (E : Collaborators σ) (sourcePkgPath src : String) (w : World σ) : World σ :=
  (ListSetters E {} src sourcePkgPath w).2

/-- The events that a `Set` call for a pair can append to the trace. -/
def eventsOf (src : String) (p : setters2.SetterDefinition × String) : Slice Call :=
  [Call.Set (fieldSetterOf p.1) src p.2,
   Call.UpdateFile (requestOf (fieldSetterOf p.1)) src,
   Call.AddSchemaFromFile src,
   Call.Execute (pipelineOf (fieldSetterOf p.1) p.2)]

/-- The `Set` calls recorded in a trace, in order. -/
def setCalls : Slice Call → Slice (FieldSetter × String × String)
  | [] => []
  | Call.Set fs o r :: rest => (fs, o, r) :: setCalls rest
  | _ :: rest => setCalls rest

/-- The `Set` call that the bulk operation issues for a pair. -/
def callOf (src : String) (p : setters2.SetterDefinition × String) :
    FieldSetter × String × String :=
  (fieldSetterOf p.1, src, p.2)

/-- What holds of every call that `SetAllSetterDefinitions` issues after the
listing: the schema steps get the source OpenAPI path and the data of a listed
setter, the resource pass gets a destination directory. -/
def issuedFor (src : String) (setters : Slice setters2.SetterDefinition)
    (destDirs : Slice String) : Call → Prop
  | Call.Set fs o r =>
    o = src ∧ r ∈ destDirs ∧ ∃ sd ∈ setters,
      fs.Name = sd.Name ∧ fs.Value = sd.Value ∧ fs.ListValues = sd.ListValues ∧
      fs.Description = sd.Description ∧ fs.SetBy = sd.SetBy
  | Call.UpdateFile soa p =>
    p = src ∧ ∃ sd ∈ setters,
      soa.Name = sd.Name ∧ soa.Value = sd.Value ∧ soa.ListValues = sd.ListValues ∧
      soa.Description = sd.Description ∧ soa.SetBy = sd.SetBy
  | Call.AddSchemaFromFile p => p = src
  | Call.Execute pl =>
    ∃ sd ∈ setters, ∃ d ∈ destDirs, pl = pipelineOf (fieldSetterOf sd) d
  | Call.List _ _ => False

/-! ## Lemmas on `Set` -/

theorem Set_of_update_error (E : Collaborators σ) (fs : FieldSetter)
    (openAPIPath resourcesPath : String) (w : World σ) (err : Error)
    (h : (afterUpdate E fs openAPIPath w.state).1 = some err) :
    fs.Set E openAPIPath resourcesPath w =
      ((0, some err),
       { state := (afterUpdate E fs openAPIPath w.state).2,
         trace := w.trace ++ [Call.Set fs openAPIPath resourcesPath,
           Call.UpdateFile (requestOf fs) openAPIPath] }) := by
  unfold afterUpdate requestOf at h
  simp only [FieldSetter.Set, UpdateFile, afterUpdate, requestOf]
  rcases hu : E.UpdateFile _ openAPIPath w.state with ⟨e, st1⟩
  rw [hu] at h
  simp only at h
  subst h
  simp

theorem Set_of_reload_error (E : Collaborators σ) (fs : FieldSetter)
    (openAPIPath resourcesPath : String) (w : World σ) (err : Error)
    (hu : (afterUpdate E fs openAPIPath w.state).1 = none)
    (h : (afterReload E fs openAPIPath w.state).1 = some err) :
    fs.Set E openAPIPath resourcesPath w =
      ((0, some err),
       { state := (afterReload E fs openAPIPath w.state).2,
         trace := w.trace ++ [Call.Set fs openAPIPath resourcesPath,
           Call.UpdateFile (requestOf fs) openAPIPath,
           Call.AddSchemaFromFile openAPIPath] }) := by
  unfold afterReload afterUpdate requestOf at h
  unfold afterUpdate requestOf at hu
  simp only [FieldSetter.Set, UpdateFile, AddSchemaFromFile, afterReload, afterUpdate, requestOf]
  rcases hu1 : E.UpdateFile _ openAPIPath w.state with ⟨e, st1⟩
  rw [hu1] at hu h
  simp only at hu h
  subst hu
  rcases hr1 : E.AddSchemaFromFile openAPIPath st1 with ⟨e2, st2⟩
  rw [hr1] at h
  simp only at h
  subst h
  simp [hr1]

theorem Set_of_pass (E : Collaborators σ) (fs : FieldSetter)
    (openAPIPath resourcesPath : String) (w : World σ)
    (hu : (afterUpdate E fs openAPIPath w.state).1 = none)
    (hr : (afterReload E fs openAPIPath w.state).1 = none) :
    fs.Set E openAPIPath resourcesPath w =
      (((afterPass E fs openAPIPath resourcesPath w.state).1.1.Count,
        (afterPass E fs openAPIPath resourcesPath w.state).1.2),
       { state := (afterPass E fs openAPIPath resourcesPath w.state).2,
         trace := w.trace ++ [Call.Set fs openAPIPath resourcesPath,
           Call.UpdateFile (requestOf fs) openAPIPath,
           Call.AddSchemaFromFile openAPIPath,
           Call.Execute (pipelineOf fs resourcesPath)] }) := by
  unfold afterReload afterUpdate requestOf at hr
  unfold afterUpdate requestOf at hu
  simp only [FieldSetter.Set, UpdateFile, AddSchemaFromFile, Execute, afterPass, afterReload,
    afterUpdate, requestOf, pipelineOf, readWriterOf]
  rcases hu1 : E.UpdateFile _ openAPIPath w.state with ⟨e, st1⟩
  rw [hu1] at hu hr
  simp only at hu hr
  subst hu
  rcases hr1 : E.AddSchemaFromFile openAPIPath st1 with ⟨e2, st2⟩
  rw [hr1] at hr
  simp only at hr
  subst hr
  simp [hr1]

theorem setCalls_append (a b : Slice Call) : setCalls (a ++ b) = setCalls a ++ setCalls b := by
  induction a with
  | nil => rfl
  | cons c rest ih => cases c <;> simp [setCalls, ih]

/-- The events that one `Set` call appends to the trace: its own entry, the
schema update, and then as many of the later steps as were reached. -/
theorem Set_trace (E : Collaborators σ) (fs : FieldSetter)
    (openAPIPath resourcesPath : String) (w : World σ) :
    ∃ n, 2 ≤ n ∧ (fs.Set E openAPIPath resourcesPath w).2.trace =
      w.trace ++ [Call.Set fs openAPIPath resourcesPath,
        Call.UpdateFile (requestOf fs) openAPIPath,
        Call.AddSchemaFromFile openAPIPath,
        Call.Execute (pipelineOf fs resourcesPath)].take n := by
  rcases hu : (afterUpdate E fs openAPIPath w.state).1 with _ | e
  · rcases hr : (afterReload E fs openAPIPath w.state).1 with _ | e
    · exact ⟨4, by decide, by rw [Set_of_pass E fs openAPIPath resourcesPath w hu hr]; rfl⟩
    · exact ⟨3, by decide, by rw [Set_of_reload_error E fs openAPIPath resourcesPath w e hu hr]; rfl⟩
  · exact ⟨2, by decide, by rw [Set_of_update_error E fs openAPIPath resourcesPath w e hu]; rfl⟩

theorem Set_setCalls (E : Collaborators σ) (fs : FieldSetter)
    (openAPIPath resourcesPath : String) (w : World σ) :
    setCalls (fs.Set E openAPIPath resourcesPath w).2.trace =
      setCalls w.trace ++ [(fs, openAPIPath, resourcesPath)] := by
  obtain ⟨n, hn, h⟩ := Set_trace E fs openAPIPath resourcesPath w
  rw [h, setCalls_append]
  congr 1
  match n, hn with
  | 2, _ => rfl
  | 3, _ => rfl
  | (k + 4), _ => simp [setCalls]

theorem Set_count (E : Collaborators σ) (fs : FieldSetter)
    (openAPIPath resourcesPath : String) (w : World σ) :
    (fs.Set E openAPIPath resourcesPath w).1.1 =
      (if (afterUpdate E fs openAPIPath w.state).1.isSome ||
          (afterReload E fs openAPIPath w.state).1.isSome then 0
       else (afterPass E fs openAPIPath resourcesPath w.state).1.1.Count) := by
  rcases hu : (afterUpdate E fs openAPIPath w.state).1 with _ | e
  · rcases hr : (afterReload E fs openAPIPath w.state).1 with _ | e
    · rw [Set_of_pass E fs openAPIPath resourcesPath w hu hr]
      simp
    · rw [Set_of_reload_error E fs openAPIPath resourcesPath w e hu hr]
      simp
  · rw [Set_of_update_error E fs openAPIPath resourcesPath w e hu]
    simp

/-! ## Lemmas on the store -/

theorem model_UpdateFile_packages (soa : setters2.SetOpenAPI) (path : String) (st : model.Store) :
    (model.UpdateFile soa path st).2.packages = st.packages := by
  unfold model.UpdateFile
  split
  · rfl
  · split <;> rfl

theorem model_AddSchemaFromFile_packages (path : String) (st : model.Store) :
    (model.AddSchemaFromFile path st).2.packages = st.packages := by
  unfold model.AddSchemaFromFile
  split
  · rfl
  · split <;> rfl

/-! ## The claims on `Set` and `Filter` -/

/-- C1: the schema update is attempted first, then the schema reload, then the
resource pass.  When the update fails, or the update succeeds and the reload
fails, `Set` returns count 0 with exactly that error and no resource pass is
run: the store is the one the schema steps left, and what they leave untouched
of the resource directories is unchanged. -/
theorem Set_schema_steps_first (E : Collaborators σ) (fs : FieldSetter)
    (openAPIPath resourcesPath : String) (w : World σ) {ρ : Type} (resources : σ → ρ)
    (hU : ∀ soa p st, resources (E.UpdateFile soa p st).2 = resources st)
    (hR : ∀ p st, resources (E.AddSchemaFromFile p st).2 = resources st) :
    (∃ n, 2 ≤ n ∧ (fs.Set E openAPIPath resourcesPath w).2.trace =
      w.trace ++ [Call.Set fs openAPIPath resourcesPath,
        Call.UpdateFile (requestOf fs) openAPIPath,
        Call.AddSchemaFromFile openAPIPath,
        Call.Execute (pipelineOf fs resourcesPath)].take n) ∧
    (∀ err, (afterUpdate E fs openAPIPath w.state).1 = some err →
      (fs.Set E openAPIPath resourcesPath w).1 = (0, some err) ∧
      (fs.Set E openAPIPath resourcesPath w).2.trace =
        w.trace ++ [Call.Set fs openAPIPath resourcesPath,
          Call.UpdateFile (requestOf fs) openAPIPath] ∧
      (fs.Set E openAPIPath resourcesPath w).2.state =
        (afterUpdate E fs openAPIPath w.state).2 ∧
      resources (fs.Set E openAPIPath resourcesPath w).2.state = resources w.state) ∧
    (∀ err, (afterUpdate E fs openAPIPath w.state).1 = none →
      (afterReload E fs openAPIPath w.state).1 = some err →
      (fs.Set E openAPIPath resourcesPath w).1 = (0, some err) ∧
      (fs.Set E openAPIPath resourcesPath w).2.trace =
        w.trace ++ [Call.Set fs openAPIPath resourcesPath,
          Call.UpdateFile (requestOf fs) openAPIPath,
          Call.AddSchemaFromFile openAPIPath] ∧
      (fs.Set E openAPIPath resourcesPath w).2.state =
        (afterReload E fs openAPIPath w.state).2 ∧
      resources (fs.Set E openAPIPath resourcesPath w).2.state = resources w.state) := by
  refine ⟨Set_trace E fs openAPIPath resourcesPath w, ?_, ?_⟩
  · intro err h
    rw [Set_of_update_error E fs openAPIPath resourcesPath w err h]
    exact ⟨rfl, rfl, rfl, hU _ _ _⟩
  · intro err hu h
    rw [Set_of_reload_error E fs openAPIPath resourcesPath w err hu h]
    refine ⟨rfl, rfl, rfl, ?_⟩
    show resources (afterReload E fs openAPIPath w.state).2 = resources w.state
    unfold afterReload
    rw [hR, afterUpdate, hU]

/-- Witness of C1: in the scenario store, `Set` on a schema path that cannot be
read returns 0 with the update error, and `Set` on the schema document that
defines the setter twice returns 0 with the reload error; neither runs the
resource pass and both leave the packages as they were. -/
theorem Set_schema_steps_first_witness :
    (∀ soa p st, (model.collaborators.UpdateFile soa p st).2.packages = st.packages) ∧
    (∀ p st, (model.collaborators.AddSchemaFromFile p st).2.packages = st.packages) ∧
    ((model.setImageTag.Set model.collaborators "nope" "src" model.world0).1 =
        (0, some "SchemaUpdateError: cannot read schema") ∧
      (model.setImageTag.Set model.collaborators "nope" "src" model.world0).2.trace =
        [Call.Set model.setImageTag "nope" "src",
         Call.UpdateFile (requestOf model.setImageTag) "nope"] ∧
      (model.setImageTag.Set model.collaborators "nope" "src" model.world0).2.state.packages =
        model.store0.packages) ∧
    ((model.setImageTag.Set model.collaborators "bad/Krmfile" "src" model.world0).1 =
        (0, some "SchemaLoadError: malformed schema") ∧
      (model.setImageTag.Set model.collaborators "bad/Krmfile" "src" model.world0).2.trace =
        [Call.Set model.setImageTag "bad/Krmfile" "src",
         Call.UpdateFile (requestOf model.setImageTag) "bad/Krmfile",
         Call.AddSchemaFromFile "bad/Krmfile"] ∧
      (model.setImageTag.Set model.collaborators "bad/Krmfile" "src"
        model.world0).2.state.packages = model.store0.packages) :=
  have h1 := (Set_schema_steps_first model.collaborators model.setImageTag "nope" "src"
    model.world0 (fun st => st.packages) model_UpdateFile_packages
    model_AddSchemaFromFile_packages).2.1 "SchemaUpdateError: cannot read schema" (by decide)
  have h2 := (Set_schema_steps_first model.collaborators model.setImageTag "bad/Krmfile" "src"
    model.world0 (fun st => st.packages) model_UpdateFile_packages
    model_AddSchemaFromFile_packages).2.2 "SchemaLoadError: malformed schema"
    (by decide) (by decide)
  ⟨model_UpdateFile_packages, model_AddSchemaFromFile_packages,
    ⟨h1.1, h1.2.1, h1.2.2.2⟩, ⟨h2.1, h2.2.1, h2.2.2.2⟩⟩

/-- C2: when the schema update and the schema reload both succeed, the count
that `Set` returns is the value of the filter's shared counter as the pipeline
run leaves it, and the error is the pipeline's error, whether nil or not. -/
theorem Set_returns_counter (E : Collaborators σ) (fs : FieldSetter)
    (openAPIPath resourcesPath : String) (w : World σ)
    (hu : (afterUpdate E fs openAPIPath w.state).1 = none)
    (hr : (afterReload E fs openAPIPath w.state).1 = none) :
    (fs.Set E openAPIPath resourcesPath w).1.1 =
      (afterPass E fs openAPIPath resourcesPath w.state).1.1.Count ∧
    (fs.Set E openAPIPath resourcesPath w).1.2 =
      (afterPass E fs openAPIPath resourcesPath w.state).1.2 ∧
    (fs.Set E openAPIPath resourcesPath w).2.state =
      (afterPass E fs openAPIPath resourcesPath w.state).2 := by
  rw [Set_of_pass E fs openAPIPath resourcesPath w hu hr]
  exact ⟨rfl, rfl, rfl⟩

/-- Witness of C2: in the scenario store two fields reference `image-tag`, and
`Set` returns the counter value 2 with a nil error; on a directory that cannot
be read the pipeline aborts, and `Set` returns the counter as it stands, 0,
with the pipeline's error. -/
theorem Set_returns_counter_witness :
    (afterUpdate model.collaborators model.setImageTag "src/Krmfile" model.world0.state).1 = none ∧
    (afterReload model.collaborators model.setImageTag "src/Krmfile" model.world0.state).1 = none ∧
    (afterPass model.collaborators model.setImageTag "src/Krmfile" "src"
      model.world0.state).1 = ({ Name := "image-tag", Count := 2 }, none) ∧
    (model.setImageTag.Set model.collaborators "src/Krmfile" "src" model.world0).1.1 =
      (afterPass model.collaborators model.setImageTag "src/Krmfile" "src"
        model.world0.state).1.1.Count ∧
    (model.setImageTag.Set model.collaborators "src/Krmfile" "src" model.world0).1.2 =
      (afterPass model.collaborators model.setImageTag "src/Krmfile" "src"
        model.world0.state).1.2 ∧
    (afterPass model.collaborators model.setImageTag "src/Krmfile" "missing"
      model.world0.state).1 =
        ({ Name := "image-tag", Count := 0 }, some "PipelineError: cannot read directory") ∧
    (model.setImageTag.Set model.collaborators "src/Krmfile" "missing" model.world0).1.1 =
      (afterPass model.collaborators model.setImageTag "src/Krmfile" "missing"
        model.world0.state).1.1.Count ∧
    (model.setImageTag.Set model.collaborators "src/Krmfile" "missing" model.world0).1.2 =
      (afterPass model.collaborators model.setImageTag "src/Krmfile" "missing"
        model.world0.state).1.2 :=
  have h := Set_returns_counter model.collaborators model.setImageTag "src/Krmfile" "src"
    model.world0 (by decide) (by decide)
  have h2 := Set_returns_counter model.collaborators model.setImageTag "src/Krmfile" "missing"
    model.world0 (by decide) (by decide)
  ⟨by decide, by decide, by decide, h.1, h.2.1, by decide, h2.1, h2.2.1⟩

/-- C4, as the code has it: `Filter` returns the nil list of documents whatever
the input and whatever `Set` did, so its result is the input only when the
input is empty. -/
theorem Filter_returns_nil_nodes (E : Collaborators σ) (fs : FieldSetter)
    (input : Slice yaml.RNode) (w : World σ) :
    (fs.Filter E input w).1.nodes = [] ∧
    ((fs.Filter E input w).1.nodes = input ↔ input = []) := by
  refine ⟨rfl, ?_⟩
  show (([] : Slice yaml.RNode) = input) ↔ input = []
  exact eq_comm

/-- C4 fails as stated: on the three documents of the scenario `Filter` returns
no document at all. -/
theorem Filter_input_not_returned :
    (model.setImageTag.Filter model.collaborators model.docs model.world0).1.nodes ≠ model.docs := by
  decide

/-- C5, as the code has it: `Filter` returns a nil error whatever `Set`
returned; the error of `Set` is discarded. -/
theorem Filter_returns_nil_error (E : Collaborators σ) (fs : FieldSetter)
    (input : Slice yaml.RNode) (w : World σ) :
    (fs.Filter E input w).1.err = none := rfl

/-- C5 fails as stated: with a schema path that cannot be read `Set` fails with
the update error, and `Filter` on the same receiver returns a nil error. -/
theorem Filter_error_dropped :
    ({ model.setImageTag with OpenAPIPath := "nope" } : FieldSetter).Set
        model.collaborators "nope" "src" model.world0 |>.1.2 =
      some "SchemaUpdateError: cannot read schema" ∧
    (({ model.setImageTag with OpenAPIPath := "nope" } : FieldSetter).Filter
        model.collaborators model.docs model.world0).1.err = none := by
  decide

/-- C10: `Filter` runs `Set` exactly once, with the receiver's own paths; the
receiver's `Count` becomes the count that `Set` returned (0 when `Set` failed
before the resource pass) and every other field of the receiver is unchanged. -/
theorem Filter_stores_count (E : Collaborators σ) (fs : FieldSetter)
    (input : Slice yaml.RNode) (w : World σ) :
    (fs.Filter E input w).2 = (fs.Set E fs.OpenAPIPath fs.ResourcesPath w).2 ∧
    setCalls (fs.Filter E input w).2.trace =
      setCalls w.trace ++ [(fs, fs.OpenAPIPath, fs.ResourcesPath)] ∧
    (fs.Filter E input w).1.fs.Count = (fs.Set E fs.OpenAPIPath fs.ResourcesPath w).1.1 ∧
    (fs.Filter E input w).1.fs.Count =
      (if (afterUpdate E fs fs.OpenAPIPath w.state).1.isSome ||
          (afterReload E fs fs.OpenAPIPath w.state).1.isSome then 0
       else (afterPass E fs fs.OpenAPIPath fs.ResourcesPath w.state).1.1.Count) ∧
    (fs.Filter E input w).1.fs.Name = fs.Name ∧
    (fs.Filter E input w).1.fs.Value = fs.Value ∧
    (fs.Filter E input w).1.fs.ListValues = fs.ListValues ∧
    (fs.Filter E input w).1.fs.Description = fs.Description ∧
    (fs.Filter E input w).1.fs.SetBy = fs.SetBy ∧
    (fs.Filter E input w).1.fs.OpenAPIPath = fs.OpenAPIPath ∧
    (fs.Filter E input w).1.fs.ResourcesPath = fs.ResourcesPath := by
  refine ⟨rfl, ?_, rfl, ?_, rfl, rfl, rfl, rfl, rfl, rfl, rfl⟩
  · exact Set_setCalls E fs fs.OpenAPIPath fs.ResourcesPath w
  · exact Set_count E fs fs.OpenAPIPath fs.ResourcesPath w

end settersutil

/-! ## Lemmas on the loops of `SetAllSetterDefinitions` -/

namespace settersutil

variable {σ : Type}

theorem runPairs_append (E : Collaborators σ) (src : String)
    (a b : Slice (setters2.SetterDefinition × String)) (w : World σ) :
    runPairs E src (a ++ b) w =
      match runPairs E src a w with
      | (some err, w1) => (some err, w1)
      | (none, w1) => runPairs E src b w1 := by
  induction a generalizing w with
  | nil => rfl
  | cons p rest ih =>
    simp only [List.cons_append, runPairs]
    rcases (fieldSetterOf p.1).Set E src p.2 w with ⟨⟨n, _ | e⟩, w1⟩
    · exact ih w1
    · rfl

theorem setInDestDirs_eq (E : Collaborators σ) (src : String) (sd : setters2.SetterDefinition)
    (destDirs : Slice String) (w : World σ) :
    setInDestDirs E src sd destDirs w = runPairs E src (destDirs.map (fun d => (sd, d))) w := by
  induction destDirs generalizing w with
  | nil => rfl
  | cons d rest ih =>
    simp only [setInDestDirs, List.map_cons, runPairs, fieldSetterOf]
    rcases FieldSetter.Set E _ src d w with ⟨⟨n, _ | e⟩, w1⟩
    · exact ih w1
    · rfl

theorem setAllSetters_eq (E : Collaborators σ) (src : String) (destDirs : Slice String)
    (setters : Slice setters2.SetterDefinition) (w : World σ) :
    setAllSetters E src destDirs setters w = runPairs E src (pairs setters destDirs) w := by
  induction setters generalizing w with
  | nil => rfl
  | cons sd rest ih =>
    simp only [setAllSetters, pairs, runPairs_append, setInDestDirs_eq]
    rcases runPairs E src (destDirs.map (fun d => (sd, d))) w with ⟨_ | e, w1⟩
    · exact ih w1
    · rfl

theorem applyPairs_append (E : Collaborators σ) (src : String)
    (a b : Slice (setters2.SetterDefinition × String)) (w : World σ) :
    applyPairs E src (a ++ b) w = applyPairs E src b (applyPairs E src a w) := by
  induction a generalizing w with
  | nil => rfl
  | cons p rest ih => exact ih _

theorem runPairs_of_allSucceed (E : Collaborators σ) (src : String)
    (ps : Slice (setters2.SetterDefinition × String)) (w : World σ)
    (h : allSucceed E src ps w = true) :
    runPairs E src ps w = (none, applyPairs E src ps w) := by
  induction ps generalizing w with
  | nil => rfl
  | cons p rest ih =>
    simp only [allSucceed, Bool.and_eq_true] at h
    simp only [runPairs, applyPairs]
    rcases hs : (fieldSetterOf p.1).Set E src p.2 w with ⟨⟨n, _ | e⟩, w1⟩
    · rw [hs] at h
      exact ih w1 h.2
    · rw [hs] at h
      simp at h

theorem runPairs_of_first_error (E : Collaborators σ) (src : String)
    (pre post : Slice (setters2.SetterDefinition × String))
    (p : setters2.SetterDefinition × String) (w : World σ) (err : Error)
    (hpre : allSucceed E src pre w = true)
    (hfail : ((fieldSetterOf p.1).Set E src p.2 (applyPairs E src pre w)).1.2 = some err) :
    runPairs E src (pre ++ p :: post) w =
      (some err, ((fieldSetterOf p.1).Set E src p.2 (applyPairs E src pre w)).2) := by
  rw [runPairs_append, runPairs_of_allSucceed E src pre w hpre]
  simp only [runPairs]
  rcases hs : (fieldSetterOf p.1).Set E src p.2 (applyPairs E src pre w) with ⟨⟨n, _ | e⟩, w1⟩
  · rw [hs] at hfail
    simp at hfail
  · rw [hs] at hfail
    simp only [Option.some.injEq] at hfail
    subst hfail
    rfl

theorem applyPairs_setCalls (E : Collaborators σ) (src : String)
    (ps : Slice (setters2.SetterDefinition × String)) (w : World σ) :
    setCalls (applyPairs E src ps w).trace = setCalls w.trace ++ ps.map (callOf src) := by
  induction ps generalizing w with
  | nil => simp [applyPairs]
  | cons p rest ih =>
    simp only [applyPairs, List.map_cons]
    rw [ih, Set_setCalls]
    simp [callOf]

theorem pairs_append (a b : Slice setters2.SetterDefinition) (destDirs : Slice String) :
    pairs (a ++ b) destDirs = pairs a destDirs ++ pairs b destDirs := by
  induction a with
  | nil => rfl
  | cons sd rest ih => simp [pairs, ih]

theorem pairs_length (setters : Slice setters2.SetterDefinition) (destDirs : Slice String) :
    (pairs setters destDirs).length = setters.length * destDirs.length := by
  induction setters with
  | nil => simp [pairs]
  | cons sd rest ih => simp [pairs, ih, Nat.succ_mul, Nat.add_comm]

theorem mem_pairs (setters : Slice setters2.SetterDefinition) (destDirs : Slice String)
    (p : setters2.SetterDefinition × String) :
    p ∈ pairs setters destDirs ↔ p.1 ∈ setters ∧ p.2 ∈ destDirs := by
  induction setters with
  | nil => simp [pairs]
  | cons sd rest ih =>
    simp only [pairs, List.mem_append, List.mem_map, ih, List.mem_cons]
    constructor
    · rintro (⟨d, hd, rfl⟩ | ⟨h1, h2⟩)
      · exact ⟨Or.inl rfl, hd⟩
      · exact ⟨Or.inr h1, h2⟩
    · rintro ⟨rfl | h1, h2⟩
      · exact Or.inl ⟨p.2, h2, rfl⟩
      · exact Or.inr ⟨h1, h2⟩

theorem pairs_split (sPre sPost : Slice setters2.SetterDefinition) (sd : setters2.SetterDefinition)
    (dPre dPost : Slice String) (d : String) :
    pairs (sPre ++ sd :: sPost) (dPre ++ d :: dPost) =
      (pairs sPre (dPre ++ d :: dPost) ++ dPre.map (fun x => (sd, x))) ++
        (sd, d) :: (dPost.map (fun x => (sd, x)) ++ pairs sPost (dPre ++ d :: dPost)) := by
  rw [pairs_append]
  simp [pairs]

theorem runPairs_trace (E : Collaborators σ) (src : String)
    (ps : Slice (setters2.SetterDefinition × String)) (w : World σ) :
    ∃ evs, (runPairs E src ps w).2.trace = w.trace ++ evs ∧
      ∀ c ∈ evs, ∃ p ∈ ps, c ∈ eventsOf src p := by
  induction ps generalizing w with
  | nil => exact ⟨[], by simp [runPairs], by simp⟩
  | cons p rest ih =>
    obtain ⟨n, _, hn⟩ := Set_trace E (fieldSetterOf p.1) src p.2 w
    have hev : ∀ c ∈ (eventsOf src p).take n, ∃ q ∈ p :: rest, c ∈ eventsOf src q :=
      fun c hc => ⟨p, List.mem_cons_self _ _, List.mem_of_mem_take hc⟩
    simp only [runPairs]
    rcases hs : (fieldSetterOf p.1).Set E src p.2 w with ⟨⟨k, _ | e⟩, w1⟩
    · rw [hs] at hn
      obtain ⟨evs, h1, h2⟩ := ih w1
      refine ⟨(eventsOf src p).take n ++ evs, ?_, ?_⟩
      · simp only at hn
        rw [h1, hn, List.append_assoc]
        rfl
      · intro c hc
        rcases List.mem_append.1 hc with hc | hc
        · exact hev c hc
        · obtain ⟨q, hq, hcq⟩ := h2 c hc
          exact ⟨q, List.mem_cons_of_mem _ hq, hcq⟩
    · rw [hs] at hn
      exact ⟨(eventsOf src p).take n, hn, hev⟩

theorem issuedFor_of_eventsOf (src : String) (setters : Slice setters2.SetterDefinition)
    (destDirs : Slice String) (p : setters2.SetterDefinition × String)
    (hp : p ∈ pairs setters destDirs) (c : Call) (hc : c ∈ eventsOf src p) :
    issuedFor src setters destDirs c := by
  obtain ⟨h1, h2⟩ := (mem_pairs setters destDirs p).1 hp
  simp only [eventsOf, List.mem_cons, List.mem_singleton, List.not_mem_nil, or_false] at hc
  rcases hc with rfl | rfl | rfl | rfl
  · exact ⟨rfl, h2, p.1, h1, rfl, rfl, rfl, rfl, rfl⟩
  · exact ⟨rfl, p.1, h1, rfl, rfl, rfl, rfl, rfl⟩
  · exact rfl
  · exact ⟨p.1, h1, p.2, h2, rfl⟩

theorem SetAll_of_list_ok (E : Collaborators σ) (sourcePkgPath src : String)
    (destDirs : Slice String) (w : World σ) (h : listError E sourcePkgPath src w = none) :
    SetAllSetterDefinitions E sourcePkgPath src destDirs w =
      runPairs E src (pairs (listed E sourcePkgPath src w) destDirs)
        (afterList E sourcePkgPath src w) := by
  unfold listError at h
  simp only [SetAllSetterDefinitions, listed, afterList]
  rcases hl : ListSetters E {} src sourcePkgPath w with ⟨⟨l1, _ | e⟩, w1⟩
  · exact setAllSetters_eq E src destDirs l1.Setters w1
  · rw [hl] at h
    simp at h

theorem SetAll_of_list_error (E : Collaborators σ) (sourcePkgPath src : String)
    (destDirs : Slice String) (w : World σ) (err : Error)
    (h : listError E sourcePkgPath src w = some err) :
    SetAllSetterDefinitions E sourcePkgPath src destDirs w =
      (some err, afterList E sourcePkgPath src w) := by
  unfold listError at h
  simp only [SetAllSetterDefinitions, afterList]
  rcases hl : ListSetters E {} src sourcePkgPath w with ⟨⟨l1, _ | e⟩, w1⟩
  · rw [hl] at h
    simp at h
  · rw [hl] at h
    simp only [Option.some.injEq] at h
    subst h
    rfl

theorem afterList_trace (E : Collaborators σ) (sourcePkgPath src : String) (w : World σ) :
    (afterList E sourcePkgPath src w).trace = w.trace ++ [Call.List src sourcePkgPath] := rfl

end settersutil

/-! ## Lemmas on the package writer of the store -/

namespace settersutil

variable {σ : Type}

theorem model_Write_keeps_path (rw : kio.LocalPackageReadWriter) (h : rw.NoDeleteFiles = true)
    (nodes files : Slice yaml.RNode) (f : yaml.RNode) (hf : f ∈ files) :
    ∃ g ∈ model.Write rw nodes files, g.path = f.path := by
  unfold model.Write
  rcases hfind : nodes.find? (fun n => n.path = f.path) with _ | n
  · refine ⟨f, List.mem_append_left _ (List.mem_filterMap.2 ⟨f, hf, ?_⟩), rfl⟩
    simp [hfind, h]
  · refine ⟨n, List.mem_append_left _ (List.mem_filterMap.2 ⟨f, hf, ?_⟩), ?_⟩
    · simp [hfind]
    · simpa using List.find?_some hfind

theorem model_Write_keeps_untouched (rw : kio.LocalPackageReadWriter)
    (h : rw.NoDeleteFiles = true) (nodes files : Slice yaml.RNode) (f : yaml.RNode)
    (hf : f ∈ files) (hn : ∀ n ∈ nodes, n.path ≠ f.path) :
    f ∈ model.Write rw nodes files := by
  unfold model.Write
  have hfind : nodes.find? (fun n => n.path = f.path) = none := by
    rw [List.find?_eq_none]
    intro n hmem
    simpa using hn n hmem
  refine List.mem_append_left _ (List.mem_filterMap.2 ⟨f, hf, ?_⟩)
  simp [hfind, h]

theorem model_lookup_replace {β : Type} (path : String) (v x : β) (l : Slice (String × β))
    (h : l.lookup path = some x) : (model.replace path v l).lookup path = some v := by
  induction l with
  | nil => simp at h
  | cons e rest ih =>
    rcases e with ⟨k, b⟩
    by_cases hk : k = path
    · subst hk
      simp [model.replace, List.lookup]
    · have hk2 : (path == k) = false := by
        simpa using fun h2 : path = k => hk h2.symm
      simp only [List.lookup, hk2] at h
      simp only [model.replace, hk, if_false, List.lookup, hk2]
      exact ih h

theorem model_Execute_keeps_files (fs : FieldSetter) (resourcesPath : String)
    (st : model.Store) (files : Slice yaml.RNode)
    (h : st.packages.lookup resourcesPath = some files) :
    ∃ after, (model.Execute (pipelineOf fs resourcesPath) st).2.packages.lookup resourcesPath =
        some after ∧ ∀ f ∈ files, ∃ g ∈ after, g.path = f.path := by
  simp only [model.Execute, pipelineOf, readWriterOf, model.readAll, h, setters2.SetAll,
    model.runFilters]
  rcases model.runFilter st.registry { Name := fs.Name, Count := 0 } (files ++ [])
    with ⟨⟨s1, out⟩, _ | e⟩
  · simp only [model.writeAll, h]
    refine ⟨_, model_lookup_replace resourcesPath _ files st.packages h, ?_⟩
    intro f hf
    exact model_Write_keeps_path _ rfl out files f hf
  · exact ⟨files, h, fun f hf => ⟨f, hf, rfl⟩⟩

theorem model_Set_keeps_files (fs : FieldSetter) (openAPIPath resourcesPath : String)
    (w : World model.Store) (files : Slice yaml.RNode)
    (h : w.state.packages.lookup resourcesPath = some files) :
    ∃ after, (fs.Set model.collaborators openAPIPath resourcesPath w).2.state.packages.lookup
        resourcesPath = some after ∧ ∀ f ∈ files, ∃ g ∈ after, g.path = f.path := by
  have hU : (afterUpdate model.collaborators fs openAPIPath w.state).2.packages =
      w.state.packages := model_UpdateFile_packages _ _ _
  have hR : (afterReload model.collaborators fs openAPIPath w.state).2.packages =
      w.state.packages := by
    unfold afterReload
    exact (model_AddSchemaFromFile_packages _ _).trans hU
  rcases hu : (afterUpdate model.collaborators fs openAPIPath w.state).1 with _ | e
  · rcases hr : (afterReload model.collaborators fs openAPIPath w.state).1 with _ | e
    · rw [Set_of_pass model.collaborators fs openAPIPath resourcesPath w hu hr]
      exact model_Execute_keeps_files fs resourcesPath _ files (by rw [hR]; exact h)
    · rw [Set_of_reload_error model.collaborators fs openAPIPath resourcesPath w e hu hr]
      exact ⟨files, by rw [hR]; exact h, fun f hf => ⟨f, hf, rfl⟩⟩
  · rw [Set_of_update_error model.collaborators fs openAPIPath resourcesPath w e hu]
    exact ⟨files, by rw [hU]; exact h, fun f hf => ⟨f, hf, rfl⟩⟩

end settersutil

/-! ## The claims on the resource pass and on `SetAllSetterDefinitions` -/

namespace settersutil

variable {σ : Type}

/-- C3: a `Set` call that reaches the resource pass runs one pipeline, with one
input and one output that are the same package read-writer on `resourcesPath`
with `NoDeleteFiles` set, and one filter, the set-all filter for the setter
`fs.Name` with its counter at 0.  With the package writer of the store, such a
pass deletes no file: a file absent from the filter's output stays as it is,
and every file of the directory is still there after the call. -/
theorem Set_pipeline_no_delete (E : Collaborators σ) (fs : FieldSetter)
    (openAPIPath resourcesPath : String) (w : World σ)
    (hu : (afterUpdate E fs openAPIPath w.state).1 = none)
    (hr : (afterReload E fs openAPIPath w.state).1 = none) :
    (∃ inout : kio.LocalPackageReadWriter, ∃ s : setters2.Set,
      (fs.Set E openAPIPath resourcesPath w).2.trace =
        w.trace ++ [Call.Set fs openAPIPath resourcesPath,
          Call.UpdateFile (requestOf fs) openAPIPath,
          Call.AddSchemaFromFile openAPIPath,
          Call.Execute { Inputs := [inout], Filters := [setters2.SetAll s], Outputs := [inout] }] ∧
      inout.PackagePath = resourcesPath ∧ inout.NoDeleteFiles = true ∧
      s.Name = fs.Name ∧ s.Count = 0 ∧
      (∀ (nodes files : Slice yaml.RNode) (f : yaml.RNode), f ∈ files →
        (∃ g ∈ model.Write inout nodes files, g.path = f.path) ∧
        ((∀ n ∈ nodes, n.path ≠ f.path) → f ∈ model.Write inout nodes files))) ∧
    (∀ (v : World model.Store) (o : String) (files : Slice yaml.RNode),
      v.state.packages.lookup resourcesPath = some files →
      ∃ after, (fs.Set model.collaborators o resourcesPath v).2.state.packages.lookup
          resourcesPath = some after ∧ ∀ f ∈ files, ∃ g ∈ after, g.path = f.path) := by
  refine ⟨⟨readWriterOf resourcesPath, { Name := fs.Name, Count := 0 }, ?_, rfl, rfl, rfl, rfl, ?_⟩,
    ?_⟩
  · rw [Set_of_pass E fs openAPIPath resourcesPath w hu hr]
    rfl
  · intro nodes files f hf
    exact ⟨model_Write_keeps_path _ rfl nodes files f hf,
      model_Write_keeps_untouched _ rfl nodes files f hf⟩
  · intro v o files h
    exact model_Set_keeps_files fs o resourcesPath v files h

/-- Witness of C3: in the scenario store the call reaches the resource pass,
and the document that does not reference the setter is still in the directory,
unchanged, after the call. -/
theorem Set_pipeline_no_delete_witness :
    (afterUpdate model.collaborators model.setImageTag "src/Krmfile" model.world0.state).1 = none ∧
    (afterReload model.collaborators model.setImageTag "src/Krmfile" model.world0.state).1 = none ∧
    (∃ inout : kio.LocalPackageReadWriter, ∃ s : setters2.Set,
      (model.setImageTag.Set model.collaborators "src/Krmfile" "src" model.world0).2.trace =
        model.world0.trace ++ [Call.Set model.setImageTag "src/Krmfile" "src",
          Call.UpdateFile (requestOf model.setImageTag) "src/Krmfile",
          Call.AddSchemaFromFile "src/Krmfile",
          Call.Execute { Inputs := [inout], Filters := [setters2.SetAll s], Outputs := [inout] }] ∧
      inout.PackagePath = "src" ∧ inout.NoDeleteFiles = true ∧
      s.Name = "image-tag" ∧ s.Count = 0) ∧
    ((model.setImageTag.Set model.collaborators "src/Krmfile" "src"
        model.world0).2.state.packages.lookup "src").map (fun l => l.map (fun f => f.path)) =
      some ["a.yaml", "b.yaml", "c.yaml"] :=
  have h := Set_pipeline_no_delete model.collaborators model.setImageTag "src/Krmfile" "src"
    model.world0 (by decide) (by decide)
  ⟨by decide, by decide,
    (let ⟨inout, s, h1, h2, h3, h4, h5, _⟩ := h.1; ⟨inout, s, h1, h2, h3, h4, h5⟩),
    by decide⟩

/-- C6: when the listing succeeds and the first `Set` call to fail, in
setter-major order, is the one for setter `sd` on destination `d`, the operation
returns that call's error; the `Set` calls performed are the pairs of every
earlier setter with all destinations, of `sd` with the destinations before `d`,
and the failing pair, and the final world is the one the failing call left. -/
theorem SetAllSetterDefinitions_first_error (E : Collaborators σ)
    (sourcePkgPath src : String) (destDirs : Slice String) (w : World σ)
    (sPre sPost : Slice setters2.SetterDefinition) (sd : setters2.SetterDefinition)
    (dPre dPost : Slice String) (d : String) (err : Error)
    (hlist : listError E sourcePkgPath src w = none)
    (hs : listed E sourcePkgPath src w = sPre ++ sd :: sPost)
    (hd : destDirs = dPre ++ d :: dPost)
    (hpre : allSucceed E src (pairs sPre destDirs ++ dPre.map (fun x => (sd, x)))
      (afterList E sourcePkgPath src w) = true)
    (hfail : ((fieldSetterOf sd).Set E src d
      (applyPairs E src (pairs sPre destDirs ++ dPre.map (fun x => (sd, x)))
        (afterList E sourcePkgPath src w))).1.2 = some err) :
    (SetAllSetterDefinitions E sourcePkgPath src destDirs w).1 = some err ∧
    (SetAllSetterDefinitions E sourcePkgPath src destDirs w).2 =
      ((fieldSetterOf sd).Set E src d
        (applyPairs E src (pairs sPre destDirs ++ dPre.map (fun x => (sd, x)))
          (afterList E sourcePkgPath src w))).2 ∧
    setCalls (SetAllSetterDefinitions E sourcePkgPath src destDirs w).2.trace =
      setCalls w.trace ++
        ((pairs sPre destDirs ++ dPre.map (fun x => (sd, x))) ++ [(sd, d)]).map (callOf src) := by
  have hrun := SetAll_of_list_ok E sourcePkgPath src destDirs w hlist
  rw [hs] at hrun
  subst hd
  rw [pairs_split] at hrun
  rw [runPairs_of_first_error E src _ _ (sd, d) _ err hpre hfail] at hrun
  rw [hrun]
  refine ⟨rfl, rfl, ?_⟩
  show setCalls ((fieldSetterOf sd).Set E src d _).2.trace = _
  rw [Set_setCalls, applyPairs_setCalls, afterList_trace, setCalls_append]
  simp [setCalls, callOf]

/-- C7: when the listing succeeds and every `Set` call succeeds, the operation
returns no error and has performed one `Set` call per (setter, destination)
pair, in setter-major order, N×M calls in all; with no setter or no destination
it performs none. -/
theorem SetAllSetterDefinitions_all_pairs (E : Collaborators σ)
    (sourcePkgPath src : String) (destDirs : Slice String) (w : World σ)
    (hlist : listError E sourcePkgPath src w = none)
    (hall : allSucceed E src (pairs (listed E sourcePkgPath src w) destDirs)
      (afterList E sourcePkgPath src w) = true) :
    (SetAllSetterDefinitions E sourcePkgPath src destDirs w).1 = none ∧
    (SetAllSetterDefinitions E sourcePkgPath src destDirs w).2 =
      applyPairs E src (pairs (listed E sourcePkgPath src w) destDirs)
        (afterList E sourcePkgPath src w) ∧
    setCalls (SetAllSetterDefinitions E sourcePkgPath src destDirs w).2.trace =
      setCalls w.trace ++ (pairs (listed E sourcePkgPath src w) destDirs).map (callOf src) ∧
    ((pairs (listed E sourcePkgPath src w) destDirs).map (callOf src)).length =
      (listed E sourcePkgPath src w).length * destDirs.length ∧
    ((listed E sourcePkgPath src w = [] ∨ destDirs = []) →
      (SetAllSetterDefinitions E sourcePkgPath src destDirs w).2.trace =
        w.trace ++ [Call.List src sourcePkgPath]) := by
  have hrun := SetAll_of_list_ok E sourcePkgPath src destDirs w hlist
  rw [runPairs_of_allSucceed E src _ _ hall] at hrun
  rw [hrun]
  refine ⟨rfl, rfl, ?_, ?_, ?_⟩
  · show setCalls (applyPairs E src _ _).trace = _
    rw [applyPairs_setCalls, afterList_trace, setCalls_append]
    simp [setCalls]
  · rw [List.length_map, pairs_length]
  · intro h
    have hp : pairs (listed E sourcePkgPath src w) destDirs = [] := by
      apply List.eq_nil_of_length_eq_zero
      rw [pairs_length]
      rcases h with h | h <;> simp [h]
    show (applyPairs E src _ _).trace = _
    rw [hp]
    rfl

/-- C8: after the listing, every call that the operation issues is a call for
a listed setter; `Set`, the schema update and the schema reload get the source
package's OpenAPI path, the request carries the setter's name, value, list
values, description and attribution, and the resource pass gets a destination
directory.  The schema update and reload are never given the destination of the
loop: with the source OpenAPI path not among the destinations, no destination
path is passed to either. -/
theorem SetAllSetterDefinitions_arguments (E : Collaborators σ)
    (sourcePkgPath src : String) (destDirs : Slice String) (w : World σ) :
    ∃ evs, (SetAllSetterDefinitions E sourcePkgPath src destDirs w).2.trace =
        w.trace ++ Call.List src sourcePkgPath :: evs ∧
      (∀ c ∈ evs, issuedFor src (listed E sourcePkgPath src w) destDirs c) ∧
      (∀ soa p, Call.UpdateFile soa p ∈ evs → p = src) ∧
      (∀ p, Call.AddSchemaFromFile p ∈ evs → p = src) ∧
      (∀ fs o r, Call.Set fs o r ∈ evs → o = src ∧ r ∈ destDirs) ∧
      (∀ pl, Call.Execute pl ∈ evs →
        ∃ d ∈ destDirs, pl.Inputs = [readWriterOf d] ∧ pl.Outputs = [readWriterOf d]) ∧
      (src ∉ destDirs → ∀ d ∈ destDirs,
        (∀ soa, Call.UpdateFile soa d ∉ evs) ∧ Call.AddSchemaFromFile d ∉ evs) := by
  have key : ∃ evs, (SetAllSetterDefinitions E sourcePkgPath src destDirs w).2.trace =
        w.trace ++ Call.List src sourcePkgPath :: evs ∧
      (∀ c ∈ evs, issuedFor src (listed E sourcePkgPath src w) destDirs c) := by
    rcases hl : listError E sourcePkgPath src w with _ | e
    · rw [SetAll_of_list_ok E sourcePkgPath src destDirs w hl]
      obtain ⟨evs, h1, h2⟩ := runPairs_trace E src
        (pairs (listed E sourcePkgPath src w) destDirs) (afterList E sourcePkgPath src w)
      refine ⟨evs, ?_, ?_⟩
      · rw [h1, afterList_trace]
        simp
      · intro c hc
        obtain ⟨p, hp, hcp⟩ := h2 c hc
        exact issuedFor_of_eventsOf src _ destDirs p hp c hcp
    · rw [SetAll_of_list_error E sourcePkgPath src destDirs w e hl]
      exact ⟨[], by rw [afterList_trace], by simp⟩
  obtain ⟨evs, h1, h2⟩ := key
  refine ⟨evs, h1, h2, ?_, ?_, ?_, ?_, ?_⟩
  · intro soa p hc
    exact (h2 _ hc).1
  · intro p hc
    exact h2 _ hc
  · intro fs o r hc
    exact ⟨(h2 _ hc).1, (h2 _ hc).2.1⟩
  · intro pl hc
    obtain ⟨sd, _, d, hd, rfl⟩ := h2 _ hc
    exact ⟨d, hd, rfl, rfl⟩
  · intro hsrc d hd
    refine ⟨fun soa hc => hsrc ?_, fun hc => hsrc ?_⟩
    · have hp : d = src := (h2 _ hc).1
      exact hp ▸ hd
    · have hp : d = src := h2 _ hc
      exact hp ▸ hd

/-- Witness of C8: in the scenario store with destinations `dst` and `src`, the
source OpenAPI path is not a destination, and no schema update or reload in the
trace is on a destination path. -/
theorem SetAllSetterDefinitions_arguments_witness :
    "src/Krmfile" ∉ ["dst", "src"] ∧
    ∃ evs, (SetAllSetterDefinitions model.collaborators "src" "src/Krmfile" ["dst", "src"]
        model.world0).2.trace = model.world0.trace ++ Call.List "src/Krmfile" "src" :: evs ∧
      (∀ soa p, Call.UpdateFile soa p ∈ evs → p = "src/Krmfile") ∧
      (∀ p, Call.AddSchemaFromFile p ∈ evs → p = "src/Krmfile") ∧
      ∀ d ∈ ["dst", "src"],
        (∀ soa, Call.UpdateFile soa d ∉ evs) ∧ Call.AddSchemaFromFile d ∉ evs :=
  ⟨by decide,
    let ⟨evs, h1, _, h3, h4, _, _, h7⟩ := SetAllSetterDefinitions_arguments model.collaborators
      "src" "src/Krmfile" ["dst", "src"] model.world0
    ⟨evs, h1, h3, h4, h7 (by decide)⟩⟩

/-- C9: when the listing fails, the operation returns the listing error and the
only call it has made is the listing: no `Set`, no schema update, no schema
reload and no resource pass, and the store is the one the listing left. -/
theorem SetAllSetterDefinitions_list_error (E : Collaborators σ)
    (sourcePkgPath src : String) (destDirs : Slice String) (w : World σ) (err : Error)
    (h : listError E sourcePkgPath src w = some err) :
    (SetAllSetterDefinitions E sourcePkgPath src destDirs w).1 = some err ∧
    (SetAllSetterDefinitions E sourcePkgPath src destDirs w).2.trace =
      w.trace ++ [Call.List src sourcePkgPath] ∧
    (SetAllSetterDefinitions E sourcePkgPath src destDirs w).2.state =
      (E.List {} src sourcePkgPath w.state).2 := by
  rw [SetAll_of_list_error E sourcePkgPath src destDirs w err h]
  exact ⟨rfl, rfl, rfl⟩

/-- Witness of C9: in the scenario store, listing a schema path that cannot be
read makes the operation return the listing error after that one call. -/
theorem SetAllSetterDefinitions_list_error_witness :
    listError model.collaborators "src" "nope" model.world0 =
      some "ListError: cannot read schema" ∧
    (SetAllSetterDefinitions model.collaborators "src" "nope" ["dst", "src"] model.world0).1 =
      some "ListError: cannot read schema" ∧
    (SetAllSetterDefinitions model.collaborators "src" "nope" ["dst", "src"] model.world0).2.trace =
      [Call.List "nope" "src"] :=
  have h := SetAllSetterDefinitions_list_error model.collaborators "src" "nope" ["dst", "src"]
    model.world0 "ListError: cannot read schema" (by decide)
  ⟨by decide, h.1, h.2.1⟩

/-- Witness of C7: in the scenario store, two listed setters on two destinations
give four `Set` calls in setter-major order and no error. -/
theorem SetAllSetterDefinitions_all_pairs_witness :
    listError model.collaborators "src" "src/Krmfile" model.world0 = none ∧
    allSucceed model.collaborators "src/Krmfile"
      (pairs (listed model.collaborators "src" "src/Krmfile" model.world0) ["dst", "src"])
      (afterList model.collaborators "src" "src/Krmfile" model.world0) = true ∧
    (SetAllSetterDefinitions model.collaborators "src" "src/Krmfile" ["dst", "src"]
      model.world0).1 = none ∧
    setCalls (SetAllSetterDefinitions model.collaborators "src" "src/Krmfile" ["dst", "src"]
      model.world0).2.trace =
      [(fieldSetterOf model.imageTag, "src/Krmfile", "dst"),
       (fieldSetterOf model.imageTag, "src/Krmfile", "src"),
       (fieldSetterOf model.replicas, "src/Krmfile", "dst"),
       (fieldSetterOf model.replicas, "src/Krmfile", "src")] :=
  have h := SetAllSetterDefinitions_all_pairs model.collaborators "src" "src/Krmfile"
    ["dst", "src"] model.world0 (by decide) (by decide)
  ⟨by decide, by decide, h.1, h.2.2.1⟩

/-- Witness of C6: in the scenario store with destinations `dst`, `missing`,
`src`, the first setter succeeds on `dst` and fails on `missing`; the operation
returns that error after exactly these two `Set` calls. -/
theorem SetAllSetterDefinitions_first_error_witness :
    listError model.collaborators "src" "src/Krmfile" model.world0 = none ∧
    listed model.collaborators "src" "src/Krmfile" model.world0 =
      [] ++ model.imageTag :: [model.replicas] ∧
    (SetAllSetterDefinitions model.collaborators "src" "src/Krmfile" ["dst", "missing", "src"]
      model.world0).1 = some "PipelineError: cannot read directory" ∧
    setCalls (SetAllSetterDefinitions model.collaborators "src" "src/Krmfile"
      ["dst", "missing", "src"] model.world0).2.trace =
      [(fieldSetterOf model.imageTag, "src/Krmfile", "dst"),
       (fieldSetterOf model.imageTag, "src/Krmfile", "missing")] :=
  have h := SetAllSetterDefinitions_first_error model.collaborators "src" "src/Krmfile"
    ["dst", "missing", "src"] model.world0 [] [model.replicas] model.imageTag
    ["dst"] ["src"] "missing" "PipelineError: cannot read directory"
    (by decide) (by decide) rfl (by decide) (by decide)
  ⟨by decide, by decide, h.1, h.2.2⟩

end settersutil
